import Mathlib

/-!
Verification development for the meet-in-the-middle repository.

The Python sources under `meet-in-the-middle/` are shallowly embedded here:
floats become exact rationals (`ℚ`), Python dicts become structures, fallible
calls become `Option`/`Except`, and Python's `round(x, n)` (round-half-to-even)
is modelled exactly on `ℚ`.
-/

/-- Python's `round` uses banker's rounding (round half to even).
`roundHalfEven x` is the integer nearest to `x`, ties going to the even one. -/
def roundHalfEven (x : ℚ) : ℤ :=
  if x - ⌊x⌋ < 1/2 then ⌊x⌋
  else if 1/2 < x - ⌊x⌋ then ⌊x⌋ + 1
  else if ⌊x⌋ % 2 = 0 then ⌊x⌋ else ⌊x⌋ + 1

/-- Model of Python `round(x, 2)` on exact rationals. -/
def pyRound2 (x : ℚ) : ℚ := (roundHalfEven (x * 100) : ℚ) / 100

/-- Model of Python `round(x, 1)` on exact rationals. -/
def pyRound1 (x : ℚ) : ℚ := (roundHalfEven (x * 10) : ℚ) / 10

/-- A coordinate dict `{'lat': float, 'lng': float}`. -/
structure Coord where
  lat : ℚ
  lng : ℚ
deriving DecidableEq, Repr

/-! ## tools/midpoint_tools.py — `MidpointTool` -/

/-- `MidpointTool.TRAVEL_WEIGHTS` dict lookup: `walking=1.0, bicycling=0.8,
transit=0.7, driving=0.5`; unknown keys are absent (`None`). -/
def travelWeightLookup (s : String) : Option ℚ :=
  if s = "walking" then some 1
  else if s = "bicycling" then some (4/5)
  else if s = "transit" then some (7/10)
  else if s = "driving" then some (1/2)
  else none

/-- `TRAVEL_WEIGHTS.get(mode.lower(), TRAVEL_WEIGHTS['transit'])` as used in
`calculate_weighted_midpoint`. -/
def getWeight (mode : String) : ℚ :=
  (travelWeightLookup mode.toLower).getD (7/10)

/-- Result dict of `calculate_simple_midpoint`. -/
structure SimpleMid where
  lat : ℚ
  lng : ℚ
  method : String
deriving DecidableEq, Repr

/-- `MidpointTool.calculate_simple_midpoint`: arithmetic mean of the two
latitudes and the two longitudes. -/
def calculate_simple_midpoint (coord1 coord2 : Coord) : SimpleMid :=
  { lat := (coord1.lat + coord2.lat) / 2
    lng := (coord1.lng + coord2.lng) / 2
    method := "simple_geographic" }

/-- Result dict of `calculate_weighted_midpoint`. -/
structure WeightedMid where
  lat : ℚ
  lng : ℚ
  method : String
  mode1 : String
  mode2 : String
  weight1 : ℚ
  weight2 : ℚ
  adjustment_km : ℚ
deriving DecidableEq, Repr

/-- `MidpointTool.calculate_weighted_midpoint`.  The helper
`_calculate_distance` (Haversine over floats, trigonometric) is passed in as
the abstract function `distKm lat1 lng1 lat2 lng2`, since its transcendental
arithmetic has no exact executable embedding; every claim below is universal
in it. -/
def calculate_weighted_midpoint (distKm : ℚ → ℚ → ℚ → ℚ → ℚ)
    (coord1 coord2 : Coord) (mode1 mode2 : String) : WeightedMid :=
  let weight1 := getWeight mode1
  let weight2 := getWeight mode2
  let total_weight := weight1 + weight2
  let weighted_lat := (coord1.lat * weight1 + coord2.lat * weight2) / total_weight
  let weighted_lng := (coord1.lng * weight1 + coord2.lng * weight2) / total_weight
  let simple_mid := calculate_simple_midpoint coord1 coord2
  let adjustment := distKm simple_mid.lat simple_mid.lng weighted_lat weighted_lng
  { lat := weighted_lat
    lng := weighted_lng
    method := "weighted_by_travel_mode"
    mode1 := mode1
    mode2 := mode2
    weight1 := weight1
    weight2 := weight2
    adjustment_km := pyRound2 adjustment }

/-- The fairness value computed inside `calculate_distance_from_midpoint`
(lines 116–119): `min/max` when both distances are positive, else `1.0`. -/
def distanceFairnessRaw (dist1 dist2 : ℚ) : ℚ :=
  if dist1 > 0 ∧ dist2 > 0 then min dist1 dist2 / max dist1 dist2 else 1

/-- Result dict of `calculate_distance_from_midpoint`. -/
structure DistanceReport where
  distance1_km : ℚ
  distance2_km : ℚ
  fairnessField : ℚ   -- the dict key 'fairness_ratio'
deriving DecidableEq, Repr

/-- `MidpointTool.calculate_distance_from_midpoint`, abstracted over the two
Haversine distances `dist1`, `dist2` it computes from the coordinates (again
universal in the transcendental `_calculate_distance`). -/
def calculate_distance_from_midpoint (dist1 dist2 : ℚ) : DistanceReport :=
  { distance1_km := pyRound2 dist1
    distance2_km := pyRound2 dist2
    fairnessField := pyRound2 (distanceFairnessRaw dist1 dist2) }

/-! ## tools/distance_matrix_tool.py — `DistanceMatrixTool` -/

/-- The successful payload of `get_travel_time` (the external oracle's
normalized response); `none` at use sites models `{'success': False}`. -/
structure Measurement where
  duration_seconds : ℚ
  duration_text : String
  distance_meters : ℚ
  distance_text : String
deriving DecidableEq, Repr

/-- The fairness expression of `compare_travel_times` line 105:
`min(duration1, duration2) / max(duration1, duration2)`, then reported as
`round(fairness, 2)` (line 124).  Python raises `ZeroDivisionError` exactly
when `max(duration1, duration2) == 0`; that raise is the `.error` case. -/
def fairnessOfDurations (duration1 duration2 : ℚ) : Except String ℚ :=
  if max duration1 duration2 = 0 then Except.error "ZeroDivisionError"
  else Except.ok (pyRound2 (min duration1 duration2 / max duration1 duration2))

/-- The successful result dict of `compare_travel_times`. -/
structure CompareResult where
  duration1 : ℚ
  durationText1 : String
  distanceText1 : String
  duration2 : ℚ
  durationText2 : String
  distanceText2 : String
  fairnessField : ℚ   -- the dict key 'fairness_ratio'
  time_difference_seconds : ℚ
  time_difference_minutes : ℚ
deriving DecidableEq, Repr

/-- `DistanceMatrixTool.compare_travel_times`, abstracted over the two
`get_travel_time` results (`none` = `{'success': False}`).  `.ok none` is the
`{'success': False, 'error': 'Could not calculate ...'}` return (line 96–100);
`.error` is an uncaught Python exception escaping the function. -/
def compare_travel_times (time1 time2 : Option Measurement) :
    Except String (Option CompareResult) :=
  match time1, time2 with
  | some m1, some m2 =>
    match fairnessOfDurations m1.duration_seconds m2.duration_seconds with
    | Except.error e => Except.error e
    | Except.ok fr =>
      let d1 := m1.duration_seconds
      let d2 := m2.duration_seconds
      Except.ok (some
        { duration1 := d1
          durationText1 := m1.duration_text
          distanceText1 := m1.distance_text
          duration2 := d2
          durationText2 := m2.duration_text
          distanceText2 := m2.distance_text
          fairnessField := fr
          time_difference_seconds := |d1 - d2|
          time_difference_minutes := pyRound1 (|d1 - d2| / 60) })
  | _, _ => Except.ok none

/-! ## agents/ranking_agent.py — `RankingAgent` -/

/-- A place dict from `PlacesTool.search_nearby`.  `rating` is `none` when the
API returned the non-numeric placeholder `'No rating'`; `price_level` is
`none` for `'Unknown'`; `open_now` is `none` for Python `None`. -/
structure Place where
  name : String
  address : String
  lat : ℚ
  lng : ℚ
  rating : Option ℚ
  user_ratings_total : ℚ
  price_level : Option ℚ
  open_now : Option Bool
deriving DecidableEq, Repr

/-- The `{'lat': place['lat'], 'lng': place['lng']}` dict built in
`rank_places`. -/
def Place.loc (p : Place) : Coord := ⟨p.lat, p.lng⟩

/-- A place dict after the enrichment loop of `rank_places` (lines 64–91):
either all four travel fields were set from a successful
`compare_travel_times`, or only `travel_fairness = None` was set. -/
structure EnrichedPlace where
  base : Place
  travel_fairness : Option ℚ
  time_person1 : Option String
  time_person2 : Option String
  time_difference_min : Option ℚ
deriving DecidableEq, Repr

/-- One iteration of the `rank_places` enrichment loop for one place, given
the two per-person oracle responses (`oracle1 dest` models
`get_travel_time(person1_location, dest, mode1)`).  `.error` propagates an
uncaught exception out of `compare_travel_times`. -/
def enrichPlace (oracle1 oracle2 : Coord → Option Measurement) (p : Place) :
    Except String EnrichedPlace :=
  match compare_travel_times (oracle1 p.loc) (oracle2 p.loc) with
  | Except.error e => Except.error e
  | Except.ok none => Except.ok ⟨p, none, none, none, none⟩
  | Except.ok (some r) =>
      Except.ok ⟨p, some r.fairnessField, some r.durationText1,
        some r.durationText2, some r.time_difference_minutes⟩

/-- The whole enrichment loop of `rank_places`: places are processed in order
and an uncaught exception aborts the loop. -/
def enrichPlaces (oracle1 oracle2 : Coord → Option Measurement) :
    List Place → Except String (List EnrichedPlace)
  | [] => Except.ok []
  | p :: rest =>
    match enrichPlace oracle1 oracle2 p with
    | Except.error e => Except.error e
    | Except.ok ep =>
      match enrichPlaces oracle1 oracle2 rest with
      | Except.error e => Except.error e
      | Except.ok l => Except.ok (ep :: l)

/-- An entry of the ranked list assembled in `_rank_with_ai` (lines 180–187). -/
structure AIRanked where
  place : EnrichedPlace
  rank : ℕ
  reasoning : String
deriving DecidableEq, Repr

/-- Python list indexing `places[idx]` for a possibly negative `idx`:
negative indices count from the end; `none` models the `IndexError` raised
when `idx < -len(places)`. -/
def pyGetPlaces (places : List EnrichedPlace) (idx : ℤ) : Option EnrichedPlace :=
  if 0 ≤ idx then places.get? idx.toNat
  else if 0 ≤ idx + places.length then places.get? (idx + places.length).toNat
  else none

/-- The assembly loop `for rank, idx in enumerate(ranked_indices, 1)`:
the rank counter advances for every delegate index, but only indices with
`idx < len(places)` contribute an entry; `none` models an `IndexError` from a
negative index below `-len(places)` (caught by the surrounding `try`, which
then falls back).  `reasons i` models `reasoning.get(str(idx), ...)`. -/
def buildRankedAux (places : List EnrichedPlace) (reasons : ℤ → Option String) :
    ℕ → List ℤ → Option (List AIRanked)
  | _, [] => some []
  | rank, idx :: rest =>
    if idx < (places.length : ℤ) then
      match pyGetPlaces places idx with
      | some v =>
        (buildRankedAux places reasons (rank + 1) rest).map
          (fun l => ⟨v, rank, (reasons idx).getD "No reasoning provided"⟩ :: l)
      | none => none
    else buildRankedAux places reasons (rank + 1) rest

/-- The ranked-list assembly of `_rank_with_ai` (lines 179–188), starting the
`enumerate` rank counter at 1. -/
def buildRanked (places : List EnrichedPlace) (reasons : ℤ → Option String)
    (ranked_indices : List ℤ) : Option (List AIRanked) :=
  buildRankedAux places reasons 1 ranked_indices

/-- Python truthiness of `place.get('travel_fairness')`: `None` and `0.0` are
falsy. -/
def qTruthy : Option ℚ → Bool
  | none => false
  | some f => !(f == 0)

/-- The score accumulated for one place in `_fallback_ranking` (lines
209–224), before the `round(score, 2)` applied when it is stored. -/
def fallbackScore (e : EnrichedPlace) : ℚ :=
  (match e.base.rating with
   | some r => r * 10
   | none => 0)
  + min (e.base.user_ratings_total / 10) 25
  + (if qTruthy e.travel_fairness then e.travel_fairness.getD 0 * 25 else 0)
  + (if e.base.open_now == some true then 10 else 0)

/-- A place dict carrying the `'score'` key. -/
structure ScoredPlace where
  place : EnrichedPlace
  score : ℚ
deriving DecidableEq, Repr

/-- The `scored_places` list of `_fallback_ranking`: each place copy gets
`place_copy['score'] = round(score, 2)`. -/
def scoredPlaces (places : List EnrichedPlace) : List ScoredPlace :=
  places.map (fun p => ⟨p, pyRound2 (fallbackScore p)⟩)

/-- Stable insertion into a list sorted by descending score: the new element
goes before the first element whose score is not larger.  This is the
behaviour of Python's stable `sorted(..., key=lambda x: x['score'],
reverse=True)`: ties keep input order. -/
def insertDesc (x : ScoredPlace) : List ScoredPlace → List ScoredPlace
  | [] => [x]
  | h :: t => if h.score ≤ x.score then x :: h :: t else h :: insertDesc x t

/-- `sorted(scored_places, key=lambda x: x['score'], reverse=True)` as a
stable descending insertion sort. -/
def sortScored (l : List ScoredPlace) : List ScoredPlace :=
  l.foldr insertDesc []

/-- An entry of the final fallback ranking, with `'rank'` and
`'ai_reasoning'` attached (lines 235–237). -/
structure RankedPlace where
  place : EnrichedPlace
  score : ℚ
  rank : ℕ
  reasoning : String
deriving DecidableEq, Repr

/-- `for i, place in enumerate(ranked, 1): place['rank'] = i; ...`. -/
def attachRanks : ℕ → List ScoredPlace → List RankedPlace
  | _, [] => []
  | r, e :: t =>
    ⟨e.place, e.score, r, "Score: " ++ toString e.score ++ " (fallback ranking)"⟩
      :: attachRanks (r + 1) t

/-- `RankingAgent._fallback_ranking`: score every place, sort stably by
descending score, then attach ranks `1..n` and a synthetic reasoning
string. -/
def fallback_ranking (places : List EnrichedPlace) : List RankedPlace :=
  attachRanks 1 (sortScored (scoredPlaces places))

/-! ## `find_time_fair_midpoint` (modelled from the spec)

`main.py` line 163 and `app.py` line 156 call
`midpoint_tool.find_time_fair_midpoint(coord1, coord2, mode1, mode2,
distance_matrix_tool)`, but no definition of that method appears in the
repository sources — only its callers.  It is modelled below from spec
§4.2 "Time-fair iterative". -/

/-- The spec's fairness metric §4.3: `1.0` if both measurements are `0`,
otherwise `min(a,b)/max(a,b)`. -/
def fairnessRatioSpec (a b : ℚ) : ℚ :=
  if a = 0 ∧ b = 0 then 1 else min a b / max a b

/-- The result dict of the time-fair midpoint search, covering the fields its
callers read (`lat`, `lng`, `travel_time_person1/2`,
`time_difference_minutes`, `fairness_ratio`) plus the weighted-method
diagnostics carried by the fallback. -/
structure TimeFairResult where
  lat : ℚ
  lng : ℚ
  method : String
  mode1 : String
  mode2 : String
  weight1 : ℚ
  weight2 : ℚ
  adjustment_km : ℚ
  travel_time_person1 : Option String
  travel_time_person2 : Option String
  time_difference_minutes : Option ℚ
  fairnessField : Option ℚ
deriving DecidableEq, Repr

/-- Modelled from the spec: the weighted-by-mode result that the time-fair
search degrades to ("fall back to the weighted-by-mode result and mark the
method accordingly rather than raising"), carrying exactly the
`calculate_weighted_midpoint` dict and no travel-time diagnostics. -/
def weightedFallbackResult (distKm : ℚ → ℚ → ℚ → ℚ → ℚ)
    (coord1 coord2 : Coord) (mode1 mode2 : String) : TimeFairResult :=
  let w := calculate_weighted_midpoint distKm coord1 coord2 mode1 mode2
  ⟨w.lat, w.lng, w.method, w.mode1, w.mode2, w.weight1, w.weight2,
    w.adjustment_km, none, none, none, none⟩

/-- Modelled from the spec: nudge the candidate point a fixed conservative
step (1/10 of the way, a documented implementation constant per §9) toward
the slower-traveling person's origin, along the line between the origins. -/
def nudgeToward (pt target : Coord) : Coord :=
  ⟨pt.lat + (target.lat - pt.lat) / 10, pt.lng + (target.lng - pt.lng) / 10⟩

/-- Modelled from the spec: the successful final report of the time-fair
search — coordinate, per-person duration text, time difference in minutes,
and the §4.3 fairness ratio. -/
def timeFairReport (distKm : ℚ → ℚ → ℚ → ℚ → ℚ) (coord1 coord2 : Coord)
    (mode1 mode2 : String) (pt : Coord) (t1 t2 : Measurement) : TimeFairResult :=
  ⟨pt.lat, pt.lng, "time_fair_iterative", mode1, mode2,
    getWeight mode1, getWeight mode2,
    (calculate_weighted_midpoint distKm coord1 coord2 mode1 mode2).adjustment_km,
    some t1.duration_text, some t2.duration_text,
    some (pyRound1 (|t1.duration_seconds - t2.duration_seconds| / 60)),
    some (fairnessRatioSpec t1.duration_seconds t2.duration_seconds)⟩

/-- Modelled from the spec: the bounded refinement loop.  At each step both
travel times to the candidate are measured through the oracle; any failed
call degrades to the weighted result; a relative gap over 10% (fairness below
0.9) nudges the candidate toward the slower person and retries while
iterations remain. -/
def timeFairIter (distKm : ℚ → ℚ → ℚ → ℚ → ℚ)
    (oracle : Coord → Coord → String → Option Measurement)
    (coord1 coord2 : Coord) (mode1 mode2 : String) :
    ℕ → Coord → TimeFairResult
  | 0, pt =>
    match oracle coord1 pt mode1, oracle coord2 pt mode2 with
    | some t1, some t2 => timeFairReport distKm coord1 coord2 mode1 mode2 pt t1 t2
    | _, _ => weightedFallbackResult distKm coord1 coord2 mode1 mode2
  | n + 1, pt =>
    match oracle coord1 pt mode1, oracle coord2 pt mode2 with
    | some t1, some t2 =>
      if fairnessRatioSpec t1.duration_seconds t2.duration_seconds < 9/10 then
        timeFairIter distKm oracle coord1 coord2 mode1 mode2 n
          (nudgeToward pt
            (if t2.duration_seconds ≤ t1.duration_seconds then coord1 else coord2))
      else timeFairReport distKm coord1 coord2 mode1 mode2 pt t1 t2
    | _, _ => weightedFallbackResult distKm coord1 coord2 mode1 mode2

/-- Modelled from the spec: `find_time_fair_midpoint` — missing from the
repository sources, only called there — starts from the weighted-by-mode
midpoint as initial guess and runs the bounded refinement (iteration cap 3, a
documented implementation constant per §9).  Total by construction: every
oracle outcome yields a result, never an exception. -/
def find_time_fair_midpoint (distKm : ℚ → ℚ → ℚ → ℚ → ℚ)
    (oracle : Coord → Coord → String → Option Measurement)
    (coord1 coord2 : Coord) (mode1 mode2 : String) : TimeFairResult :=
  let start := calculate_weighted_midpoint distKm coord1 coord2 mode1 mode2
  timeFairIter distKm oracle coord1 coord2 mode1 mode2 3 ⟨start.lat, start.lng⟩

/-! ## Theorems -/

/-- `getWeight` only produces the four positive mode weights (or the transit
default), so it is always positive. -/
theorem getWeight_pos (mode : String) : 0 < getWeight mode := by
  unfold getWeight travelWeightLookup
  split
  · norm_num [Option.getD]
  · split
    · norm_num [Option.getD]
    · split
      · norm_num [Option.getD]
      · split
        · norm_num [Option.getD]
        · norm_num [Option.getD]

/-- C6: for every pair of coordinates (and every Haversine helper), the
weighted midpoint with `mode1 == mode2` has exactly the latitude and longitude
of the simple midpoint. -/
theorem weighted_midpoint_equal_modes_eq_simple
    (distKm : ℚ → ℚ → ℚ → ℚ → ℚ) (coord1 coord2 : Coord) (mode : String) :
    (calculate_weighted_midpoint distKm coord1 coord2 mode mode).lat
        = (calculate_simple_midpoint coord1 coord2).lat
      ∧ (calculate_weighted_midpoint distKm coord1 coord2 mode mode).lng
        = (calculate_simple_midpoint coord1 coord2).lng := by
  have hw : (0 : ℚ) < getWeight mode := getWeight_pos mode
  have hne : getWeight mode + getWeight mode ≠ 0 := by positivity
  constructor <;>
  · show (_ * getWeight mode + _ * getWeight mode) / (getWeight mode + getWeight mode) = _ / 2
    field_simp
    ring

/-- `round(1.0, 2) = 1.0`. -/
theorem pyRound2_one : pyRound2 1 = 1 := by
  have hf : ⌊(1 : ℚ) * 100⌋ = 100 := by
    rw [Int.floor_eq_iff]
    norm_num
  unfold pyRound2 roundHalfEven
  rw [hf]
  norm_num

/-- `round(0.999, 2) = 1.0`: two-decimal rounding sends `999/1000` to `1`. -/
theorem pyRound2_ratio999 : pyRound2 (999 / 1000) = 1 := by
  have hf : ⌊(999 : ℚ) / 1000 * 100⌋ = 99 := by
    rw [Int.floor_eq_iff]
    norm_num
  unfold pyRound2 roundHalfEven
  rw [hf]
  norm_num

/-- C2 counterexample: with `dist1 = 0` and `dist2 = 5` (exactly one distance
zero), the returned fairness field is `1.0`, while the claim's
`min/max` formula predicts `0`. -/
theorem distance_fairness_counterexample :
    (calculate_distance_from_midpoint 0 5).fairnessField = 1
      ∧ min (0 : ℚ) 5 / max (0 : ℚ) 5 = 0 := by
  constructor
  · have hraw : distanceFairnessRaw 0 5 = 1 := by norm_num [distanceFairnessRaw]
    show pyRound2 (distanceFairnessRaw 0 5) = 1
    rw [hraw, pyRound2_one]
  · norm_num

/-- C2 amended: the returned fairness field is `1.0` whenever the two
distances are not both positive (so also when exactly one is `0`, not `0` as
claimed); when both are positive it is `min/max` rounded to two decimals. -/
theorem distance_fairness_amended (dist1 dist2 : ℚ)
    (h1 : 0 ≤ dist1) (h2 : 0 ≤ dist2) :
    (¬(0 < dist1 ∧ 0 < dist2) →
        (calculate_distance_from_midpoint dist1 dist2).fairnessField = 1)
      ∧ (0 < dist1 → 0 < dist2 →
        (calculate_distance_from_midpoint dist1 dist2).fairnessField
          = pyRound2 (min dist1 dist2 / max dist1 dist2)) := by
  constructor
  · intro h
    show pyRound2 (distanceFairnessRaw dist1 dist2) = 1
    rw [distanceFairnessRaw, if_neg h, pyRound2_one]
  · intro hp1 hp2
    show pyRound2 (distanceFairnessRaw dist1 dist2) = _
    rw [distanceFairnessRaw, if_pos (And.intro hp1 hp2)]

/-- Witness for `distance_fairness_amended` at `dist1 = 2`, `dist2 = 3`. -/
theorem distance_fairness_amended_witness :
    (¬((0 : ℚ) < 2 ∧ (0 : ℚ) < 3) →
        (calculate_distance_from_midpoint 2 3).fairnessField = 1)
      ∧ ((0 : ℚ) < 2 → (0 : ℚ) < 3 →
        (calculate_distance_from_midpoint 2 3).fairnessField
          = pyRound2 (min 2 3 / max 2 3)) :=
  distance_fairness_amended 2 3 (by norm_num) (by norm_num)

/-- C3: when both oracle calls succeed with `duration_seconds = 0` (e.g. both
origins coincide with the destination), `compare_travel_times` evaluates
`min(0,0)/max(0,0)` and raises `ZeroDivisionError` instead of reporting the
conventional fairness `1.0`. -/
theorem compare_travel_times_zero_durations_raise :
    compare_travel_times (some ⟨0, "1 min", 0, "1 m"⟩) (some ⟨0, "1 min", 0, "1 m"⟩)
      = Except.error "ZeroDivisionError" := by
  simp [compare_travel_times, fairnessOfDurations]

/-- C5 counterexample: durations `999` and `1000` are unequal, yet the
fairness ratio reported to the caller (rounded to two decimals) is exactly
`1.0`. -/
theorem reported_fairness_one_for_unequal_durations :
    fairnessOfDurations 999 1000 = Except.ok 1 ∧ (999 : ℚ) ≠ 1000 := by
  constructor
  · have hmin : min (999 : ℚ) 1000 = 999 := by norm_num
    have hmax : max (999 : ℚ) 1000 = 1000 := by norm_num
    rw [fairnessOfDurations, if_neg (by rw [hmax]; norm_num), hmin, hmax,
      pyRound2_ratio999]
  · norm_num

/-- C5 amended: for non-negative measurements not both zero, the *unrounded*
ratio `min/max` equals `1.0` iff the measurements are equal; the value
reported to the caller is that ratio rounded to two decimals (so unequal
measurements whose ratio is at least `0.995` are also reported as `1.0`). -/
theorem unrounded_fairness_one_iff_equal (a b : ℚ)
    (ha : 0 ≤ a) (hb : 0 ≤ b) (hab : ¬(a = 0 ∧ b = 0)) :
    (min a b / max a b = 1 ↔ a = b)
      ∧ fairnessOfDurations a b = Except.ok (pyRound2 (min a b / max a b)) := by
  have hmax : 0 < max a b := by
    rcases eq_or_lt_of_le ha with ha0 | ha0
    · have hb0 : b ≠ 0 := fun h => hab ⟨ha0.symm, h⟩
      exact lt_max_of_lt_right (lt_of_le_of_ne hb (Ne.symm hb0))
    · exact lt_max_of_lt_left ha0
  constructor
  · constructor
    · intro h
      field_simp at h
      exact h
    · intro h
      subst h
      rw [min_self, max_self]
      exact div_self (ne_of_gt (by simpa using hmax))
  · simp [fairnessOfDurations, hmax.ne']

/-- Witness for `unrounded_fairness_one_iff_equal` at `a = b = 2`. -/
theorem unrounded_fairness_one_iff_equal_witness :
    (min (2 : ℚ) 2 / max (2 : ℚ) 2 = 1 ↔ (2 : ℚ) = 2)
      ∧ fairnessOfDurations 2 2 = Except.ok (pyRound2 (min 2 2 / max 2 2)) :=
  unrounded_fairness_one_iff_equal 2 2 (by norm_num) (by norm_num) (by norm_num)

/-- The spec's fallback scoring formula, written from its words:
`(rating × 10, default 0 if unrated) + min(reviewCount / 10, 25) +
(travelFairness × 25, default 0 if unknown) + (10 if openNow == true else 0)`. -/
def specFallbackScore (e : EnrichedPlace) : ℚ :=
  (match e.base.rating with
   | some r => r * 10
   | none => 0)
  + min (e.base.user_ratings_total / 10) 25
  + (match e.travel_fairness with
     | some f => f * 25
     | none => 0)
  + (if e.base.open_now = some true then 10 else 0)

/-- The spec-example venue: rating 4.5, 320 reviews, price level 2, open now,
enriched with travel fairness 0.8. -/
def exampleEnriched : EnrichedPlace :=
  ⟨⟨"Starbucks Reserve", "123 Main St", 4367/100, -794/10,
    some (9/2), 320, some 2, some true⟩, some (4/5), none, none, none⟩

/-- C7: the fallback score of every venue equals the spec's formula (the
truthiness test on `travel_fairness` coincides with the formula because a
fairness of `0` contributes `0` either way), and the example venue with
rating 4.5, 320 reviews, fairness 0.8 and open-now true scores exactly 100. -/
theorem fallback_score_matches_formula :
    (∀ e : EnrichedPlace, fallbackScore e = specFallbackScore e)
      ∧ fallbackScore exampleEnriched = 100 := by
  constructor
  · intro e
    cases hf : e.travel_fairness with
    | none => simp [fallbackScore, specFallbackScore, qTruthy, hf]
    | some f =>
      by_cases h0 : f = 0
      · simp [fallbackScore, specFallbackScore, qTruthy, hf, h0]
      · simp [fallbackScore, specFallbackScore, qTruthy, hf, h0]
  · show (9 : ℚ)/2 * 10 + min ((320 : ℚ) / 10) 25
      + (if qTruthy (some (4/5)) then (4 : ℚ)/5 * 25 else 0)
      + (if (some true : Option Bool) == some true then (10 : ℚ) else 0) = 100
    norm_num [qTruthy, min_def]

/-- Filtering by one score commutes with the stable descending insertion:
the inserted element only ever passes elements with strictly larger scores,
so it ends up in front of every equal-score element. -/
theorem filter_insertDesc (x : ScoredPlace) (l : List ScoredPlace) (s : ℚ) :
    (insertDesc x l).filter (fun e => e.score == s)
      = if x.score = s then x :: l.filter (fun e => e.score == s)
        else l.filter (fun e => e.score == s) := by
  induction l with
  | nil =>
    by_cases hx : x.score = s <;> simp [insertDesc, hx]
  | cons h t ih =>
    rw [insertDesc]
    by_cases hle : h.score ≤ x.score
    · rw [if_pos hle]
      by_cases hx : x.score = s <;> by_cases hh : h.score = s <;>
        simp [List.filter_cons, hx, hh]
    · rw [if_neg hle]
      have hlt : x.score < h.score := lt_of_not_le hle
      by_cases hx : x.score = s
      · have hh : ¬ h.score = s := by
          intro hh
          exact absurd (hx ▸ hh ▸ hlt) (lt_irrefl _)
        simp [List.filter_cons, hh, ih, hx]
      · by_cases hh : h.score = s <;> simp [List.filter_cons, hh, ih, hx]

/-- Filtering by one score is invariant under the whole sort. -/
theorem filter_sortScored (l : List ScoredPlace) (s : ℚ) :
    (sortScored l).filter (fun e => e.score == s)
      = l.filter (fun e => e.score == s) := by
  induction l with
  | nil => rfl
  | cons a t ih =>
    show (insertDesc a (sortScored t)).filter _ = _
    rw [filter_insertDesc]
    by_cases ha : a.score = s <;> simp [List.filter_cons, ha, ih]

/-- Attaching ranks neither reorders nor drops entries, so filtering by score
before or after rank attachment selects the same underlying places. -/
theorem filter_attachRanks (r : ℕ) (l : List ScoredPlace) (s : ℚ) :
    ((attachRanks r l).filter (fun e => e.score == s)).map RankedPlace.place
      = (l.filter (fun e => e.score == s)).map ScoredPlace.place := by
  induction l generalizing r with
  | nil => rfl
  | cons e t ih =>
    rw [attachRanks]
    by_cases he : e.score = s <;> simp [List.filter_cons, he, ih]

/-- C8: the fallback ranking is deterministic (it is a pure function of the
venue list), and it is stable: for every score value, the venues reported
with that score appear in exactly their input order. -/
theorem fallback_deterministic_and_stable :
    (∀ places : List EnrichedPlace, fallback_ranking places = fallback_ranking places)
      ∧ ∀ (places : List EnrichedPlace) (s : ℚ),
        ((fallback_ranking places).filter (fun e => e.score == s)).map RankedPlace.place
          = ((scoredPlaces places).filter (fun e => e.score == s)).map ScoredPlace.place := by
  refine ⟨fun _ => rfl, fun places s => ?_⟩
  rw [fallback_ranking, filter_attachRanks, filter_sortScored]

/-- Inserting into the sort is a permutation. -/
theorem insertDesc_perm (x : ScoredPlace) (l : List ScoredPlace) :
    (insertDesc x l).Perm (x :: l) := by
  induction l with
  | nil => exact List.Perm.refl _
  | cons h t ih =>
    rw [insertDesc]
    by_cases hle : h.score ≤ x.score
    · rw [if_pos hle]
    · rw [if_neg hle]
      exact (ih.cons h).trans (List.Perm.swap x h t)

/-- The sort is a permutation of its input. -/
theorem sortScored_perm (l : List ScoredPlace) : (sortScored l).Perm l := by
  induction l with
  | nil => exact List.Perm.refl _
  | cons a t ih =>
    exact (insertDesc_perm a (sortScored t)).trans (ih.cons a)

/-- Rank attachment keeps the underlying places positionally. -/
theorem attachRanks_map_place (r : ℕ) (l : List ScoredPlace) :
    (attachRanks r l).map RankedPlace.place = l.map ScoredPlace.place := by
  induction l generalizing r with
  | nil => rfl
  | cons e t ih => simp [attachRanks, ih]

/-- Rank attachment assigns the consecutive ranks `r, r+1, ...`. -/
theorem attachRanks_map_rank (r : ℕ) (l : List ScoredPlace) :
    (attachRanks r l).map RankedPlace.rank = List.range' r l.length := by
  induction l generalizing r with
  | nil => rfl
  | cons e t ih => simp [attachRanks, ih, List.range']

/-- Scoring keeps the underlying places positionally. -/
theorem scoredPlaces_map_place (places : List EnrichedPlace) :
    (scoredPlaces places).map ScoredPlace.place = places := by
  induction places with
  | nil => rfl
  | cons a t ih => simpa [scoredPlaces] using ih

/-- C10: the fallback ranking is a permutation of its input — every input
venue appears exactly once — and the attached ranks are exactly `1..n`. -/
theorem fallback_ranking_permutation (places : List EnrichedPlace) :
    ((fallback_ranking places).map RankedPlace.place).Perm places
      ∧ (fallback_ranking places).map RankedPlace.rank
          = List.range' 1 places.length
      ∧ (fallback_ranking places).length = places.length := by
  have hsortlen : (sortScored (scoredPlaces places)).length = places.length := by
    rw [(sortScored_perm (scoredPlaces places)).length_eq, scoredPlaces,
      List.length_map]
  refine ⟨?_, ?_, ?_⟩
  · rw [fallback_ranking, attachRanks_map_place]
    have h1 : ((sortScored (scoredPlaces places)).map ScoredPlace.place).Perm
        ((scoredPlaces places).map ScoredPlace.place) :=
      (sortScored_perm (scoredPlaces places)).map ScoredPlace.place
    rw [scoredPlaces_map_place] at h1
    exact h1
  · rw [fallback_ranking, attachRanks_map_rank, hsortlen]
  · have := congrArg List.length
      (attachRanks_map_rank 1 (sortScored (scoredPlaces places)))
    rw [List.length_map, List.length_range'] at this
    rw [fallback_ranking, this, hsortlen]

/-- The assembly loop only ever emits ranks at least its counter, strictly
increasing: a rank is the 1-based position of its index in the delegate's
sequence. -/
theorem buildRankedAux_ranks (places : List EnrichedPlace)
    (reasons : ℤ → Option String) :
    ∀ (idxs : List ℤ) (r : ℕ) (l : List AIRanked),
      buildRankedAux places reasons r idxs = some l →
        (∀ x ∈ l.map AIRanked.rank, r ≤ x)
          ∧ (l.map AIRanked.rank).Pairwise (· < ·) := by
  intro idxs
  induction idxs with
  | nil =>
    intro r l h
    rw [buildRankedAux] at h
    cases h
    simp
  | cons i rest ih =>
    intro r l h
    rw [buildRankedAux] at h
    by_cases hi : i < (places.length : ℤ)
    · rw [if_pos hi] at h
      cases hg : pyGetPlaces places i with
      | none => rw [hg] at h; cases h
      | some v =>
        rw [hg] at h
        rcases Option.map_eq_some'.mp h with ⟨l', hl', rfl⟩
        obtain ⟨hbound, hpair⟩ := ih (r + 1) l' hl'
        refine ⟨?_, ?_⟩
        · intro x hx
          rcases List.mem_cons.mp hx with hx | hx
          · exact hx ▸ le_refl r
          · exact le_trans (Nat.le_succ r) (hbound x hx)
        · exact List.Pairwise.cons
            (fun x hx => Nat.lt_of_succ_le (hbound x hx)) hpair
    · rw [if_neg hi] at h
      obtain ⟨hbound, hpair⟩ := ih (r + 1) l h
      exact ⟨fun x hx => le_trans (Nat.le_succ r) (hbound x hx), hpair⟩

/-- When every delegate index is in range `[0, n)`, nothing is dropped and the
assembled ranks are exactly the consecutive positions starting at the
counter. -/
theorem buildRankedAux_all_in_range (places : List EnrichedPlace)
    (reasons : ℤ → Option String) :
    ∀ (idxs : List ℤ) (r : ℕ),
      (∀ i ∈ idxs, 0 ≤ i ∧ i < (places.length : ℤ)) →
        ∃ l, buildRankedAux places reasons r idxs = some l
          ∧ l.map AIRanked.rank = List.range' r idxs.length := by
  intro idxs
  induction idxs with
  | nil =>
    intro r _
    exact ⟨[], rfl, rfl⟩
  | cons i rest ih =>
    intro r h
    obtain ⟨hi0, hilt⟩ := h i (List.mem_cons_self i rest)
    have hnat : i.toNat < places.length := by omega
    have hget : pyGetPlaces places i = some (places.get ⟨i.toNat, hnat⟩) := by
      rw [pyGetPlaces, if_pos hi0]
      exact List.get?_eq_get hnat
    obtain ⟨l', hl', hmap⟩ := ih (r + 1)
      (fun j hj => h j (List.mem_cons_of_mem i hj))
    refine ⟨⟨places.get ⟨i.toNat, hnat⟩, r,
        (reasons i).getD "No reasoning provided"⟩ :: l', ?_, ?_⟩
    · rw [buildRankedAux, if_pos hilt, hget, hl']
      rfl
    · simp [hmap, List.range']

/-- C4 amended: the ranks of the assembled list are strictly increasing with
no duplicates, but they are the 1-based positions in the delegate's index
sequence — dropping an out-of-range index leaves a gap, so they start at 1
with no gaps only when every index is in `[0, n)`. -/
theorem ai_rank_assembly_amended (places : List EnrichedPlace)
    (reasons : ℤ → Option String) (idxs : List ℤ) (l : List AIRanked)
    (h : buildRanked places reasons idxs = some l) :
    (l.map AIRanked.rank).Pairwise (· < ·)
      ∧ ((∀ i ∈ idxs, 0 ≤ i ∧ i < (places.length : ℤ)) →
          l.map AIRanked.rank = List.range' 1 idxs.length) := by
  refine ⟨(buildRankedAux_ranks places reasons idxs 1 l h).2, fun hin => ?_⟩
  obtain ⟨l', hl', hmap⟩ := buildRankedAux_all_in_range places reasons idxs 1 hin
  rw [buildRanked] at h
  rw [hl'] at h
  cases h
  exact hmap

/-- A second concrete enriched venue, distinguishable from
`exampleEnriched`. -/
def exampleEnriched2 : EnrichedPlace :=
  ⟨⟨"Local Coffee Shop", "456 Queen St", 4675/100, -795/10,
    some (24/5), 45, some 1, some true⟩, none, none, none, none⟩

/-- The single entry assembled for delegate output `[3, 0]` over one venue. -/
def exampleAIRanked : AIRanked := ⟨exampleEnriched, 2, "No reasoning provided"⟩

/-- C4 counterexample: over one venue, the delegate output `[3, 0]` drops the
out-of-range index 3 but keeps its rank slot, so the assembled list has ranks
`[2]`, not the gap-free `[1]` the claim requires; and over two venues the
delegate output `[-1]` is outside `[0, 2)` yet is not dropped — it selects the
last venue. -/
theorem ai_rank_assembly_counterexample :
    buildRanked [exampleEnriched] (fun _ => none) [3, 0] = some [exampleAIRanked]
      ∧ [exampleAIRanked].map AIRanked.rank = [2]
      ∧ ([2] : List ℕ) ≠ List.range' 1 1
      ∧ buildRanked [exampleEnriched, exampleEnriched2] (fun _ => none) [-1]
          = some [⟨exampleEnriched2, 1, "No reasoning provided"⟩]
      ∧ some [(⟨exampleEnriched2, 1, "No reasoning provided"⟩ : AIRanked)]
          ≠ some ([] : List AIRanked) := by
  refine ⟨rfl, rfl, by decide, rfl, by simp⟩

/-- Witness for `ai_rank_assembly_amended` at one venue and delegate output
`[0]`. -/
theorem ai_rank_assembly_amended_witness :
    (([⟨exampleEnriched, 1, "No reasoning provided"⟩] : List AIRanked).map
        AIRanked.rank).Pairwise (· < ·)
      ∧ ((∀ i ∈ ([0] : List ℤ),
            0 ≤ i ∧ i < (([exampleEnriched] : List EnrichedPlace).length : ℤ)) →
          ([⟨exampleEnriched, 1, "No reasoning provided"⟩] : List AIRanked).map
              AIRanked.rank
            = List.range' 1 ([0] : List ℤ).length) :=
  ai_rank_assembly_amended [exampleEnriched] (fun _ => none) [0]
    [⟨exampleEnriched, 1, "No reasoning provided"⟩] rfl

/-- A place is free of the zero-duration division trap (the separate
`compare_travel_times` defect): no pair of *successful* oracle measurements at
this place has `max` duration `0`. -/
def noZeroTrap (oracle1 oracle2 : Coord → Option Measurement) (p : Place) : Prop :=
  ∀ m1 m2, oracle1 p.loc = some m1 → oracle2 p.loc = some m2 →
    max m1.duration_seconds m2.duration_seconds ≠ 0

/-- C9: during enrichment, an oracle *failure* for a venue never drops that
venue nor aborts the batch: the batch succeeds (absent the unrelated
zero-duration division defect), every venue is kept in order, and each venue
with a failed oracle call carries `travel_fairness = None`. -/
theorem enrichment_keeps_failed_venues
    (oracle1 oracle2 : Coord → Option Measurement) (places : List Place)
    (h : ∀ p ∈ places, noZeroTrap oracle1 oracle2 p) :
    ∃ l, enrichPlaces oracle1 oracle2 places = Except.ok l
      ∧ List.Forall₂ (fun (p : Place) (e : EnrichedPlace) => e.base = p
          ∧ ((oracle1 p.loc = none ∨ oracle2 p.loc = none) →
              e.travel_fairness = none))
        places l := by
  induction places with
  | nil => exact ⟨[], rfl, List.Forall₂.nil⟩
  | cons p rest ih =>
    obtain ⟨l, hl, hall⟩ := ih (fun q hq => h q (List.mem_cons_of_mem p hq))
    have hp := h p (List.mem_cons_self p rest)
    cases ho1 : oracle1 p.loc with
    | none =>
      refine ⟨⟨p, none, none, none, none⟩ :: l, ?_, ?_⟩
      · cases ho2 : oracle2 p.loc <;>
          simp [enrichPlaces, enrichPlace, compare_travel_times, ho1, ho2, hl]
      · exact List.Forall₂.cons ⟨rfl, fun _ => rfl⟩ hall
    | some m1 =>
      cases ho2 : oracle2 p.loc with
      | none =>
        refine ⟨⟨p, none, none, none, none⟩ :: l, ?_, ?_⟩
        · simp [enrichPlaces, enrichPlace, compare_travel_times, ho1, ho2, hl]
        · exact List.Forall₂.cons ⟨rfl, fun _ => rfl⟩ hall
      | some m2 =>
        have hmax := hp m1 m2 ho1 ho2
        refine ⟨⟨p,
            some (pyRound2 (min m1.duration_seconds m2.duration_seconds
              / max m1.duration_seconds m2.duration_seconds)),
            some m1.duration_text, some m2.duration_text,
            some (pyRound1 (|m1.duration_seconds - m2.duration_seconds| / 60))⟩
            :: l, ?_, ?_⟩
        · simp [enrichPlaces, enrichPlace, compare_travel_times,
            fairnessOfDurations, ho1, ho2, hmax, hl]
        · refine List.Forall₂.cons ⟨rfl, fun hcontra => ?_⟩ hall
          rcases hcontra with hc | hc
          · exact absurd (ho1 ▸ hc) (by simp)
          · exact absurd (ho2 ▸ hc) (by simp)

/-- Witness for `enrichment_keeps_failed_venues`: one venue whose oracle
always fails. -/
theorem enrichment_keeps_failed_venues_witness :
    ∃ l, enrichPlaces (fun _ => none) (fun _ => none) [exampleEnriched.base]
        = Except.ok l
      ∧ List.Forall₂ (fun (p : Place) (e : EnrichedPlace) => e.base = p
          ∧ (((fun _ => none : Coord → Option Measurement) p.loc = none
              ∨ (fun _ => none : Coord → Option Measurement) p.loc = none) →
              e.travel_fairness = none))
        [exampleEnriched.base] l :=
  enrichment_keeps_failed_venues (fun _ => none) (fun _ => none)
    [exampleEnriched.base]
    (fun p _ m1 m2 h1 _ => absurd h1 (by simp))

/-- C1: when every travel-time oracle call fails, the time-fair midpoint
search returns exactly the weighted-by-mode result with its diagnostics
(same coordinate, weights and adjustment as `calculate_weighted_midpoint`,
method marked `weighted_by_travel_mode`); being a total function, it never
raises. -/
theorem time_fair_midpoint_oracle_failure_fallback
    (distKm : ℚ → ℚ → ℚ → ℚ → ℚ)
    (oracle : Coord → Coord → String → Option Measurement)
    (coord1 coord2 : Coord) (mode1 mode2 : String)
    (h : ∀ o d m, oracle o d m = none) :
    find_time_fair_midpoint distKm oracle coord1 coord2 mode1 mode2
        = weightedFallbackResult distKm coord1 coord2 mode1 mode2
      ∧ (find_time_fair_midpoint distKm oracle coord1 coord2 mode1 mode2).method
          = "weighted_by_travel_mode"
      ∧ (find_time_fair_midpoint distKm oracle coord1 coord2 mode1 mode2).lat
          = (calculate_weighted_midpoint distKm coord1 coord2 mode1 mode2).lat
      ∧ (find_time_fair_midpoint distKm oracle coord1 coord2 mode1 mode2).lng
          = (calculate_weighted_midpoint distKm coord1 coord2 mode1 mode2).lng := by
  have heq : find_time_fair_midpoint distKm oracle coord1 coord2 mode1 mode2
      = weightedFallbackResult distKm coord1 coord2 mode1 mode2 := by
    rw [find_time_fair_midpoint]
    rw [timeFairIter]
    rw [h, h]
  exact ⟨heq, by rw [heq]; rfl, by rw [heq]; rfl, by rw [heq]; rfl⟩

/-- Witness for `time_fair_midpoint_oracle_failure_fallback`: the CN Tower /
Yorkdale coordinates with walking and driving modes, a constant-zero distance
helper, and an oracle that always fails. -/
theorem time_fair_midpoint_oracle_failure_fallback_witness :
    find_time_fair_midpoint (fun _ _ _ _ => 0) (fun _ _ _ => none)
          ⟨43643/1000, -79387/1000⟩ ⟨43725/1000, -79451/1000⟩ "walking" "driving"
        = weightedFallbackResult (fun _ _ _ _ => 0)
          ⟨43643/1000, -79387/1000⟩ ⟨43725/1000, -79451/1000⟩ "walking" "driving"
      ∧ (find_time_fair_midpoint (fun _ _ _ _ => 0) (fun _ _ _ => none)
          ⟨43643/1000, -79387/1000⟩ ⟨43725/1000, -79451/1000⟩ "walking" "driving").method
          = "weighted_by_travel_mode"
      ∧ (find_time_fair_midpoint (fun _ _ _ _ => 0) (fun _ _ _ => none)
          ⟨43643/1000, -79387/1000⟩ ⟨43725/1000, -79451/1000⟩ "walking" "driving").lat
          = (calculate_weighted_midpoint (fun _ _ _ _ => 0)
          ⟨43643/1000, -79387/1000⟩ ⟨43725/1000, -79451/1000⟩ "walking" "driving").lat
      ∧ (find_time_fair_midpoint (fun _ _ _ _ => 0) (fun _ _ _ => none)
          ⟨43643/1000, -79387/1000⟩ ⟨43725/1000, -79451/1000⟩ "walking" "driving").lng
          = (calculate_weighted_midpoint (fun _ _ _ _ => 0)
          ⟨43643/1000, -79387/1000⟩ ⟨43725/1000, -79451/1000⟩ "walking" "driving").lng :=
  time_fair_midpoint_oracle_failure_fallback (fun _ _ _ _ => 0) (fun _ _ _ => none)
    ⟨43643/1000, -79387/1000⟩ ⟨43725/1000, -79451/1000⟩ "walking" "driving"
    (fun _ _ _ => rfl)
